import Mathlib

/-!
# Verification of the pyExpTools spectral-data pipeline

Shallow embedding of `pyExpTools/SpectTools.py`: the `SpectExp` record
loader (`readFile`, `setData`, `setMetaInfo`), the `SpectGroup` store
(`setExpList`, `addExp`, `Compose`, `genStats`, `genSubgroup`) and the
pandas operations they rely on (`read_csv`, `merge`, row-wise
`min`/`max`/`mean`/`std`).

Modelling conventions:
* pandas `float64` cells are modelled as exact rationals (`ℚ`); `NaN`
  entries are modelled by `Option` (`none` = NaN / undefined).
* A source-file line is modelled as its raw string (used for the
  header-sentinel comparison and for metadata) together with the result
  of splitting it on the delimiter and float-casting each field
  (`none` for a field that does not cast).  This abstracts Python's
  string splitting and `float` casting, which the claims never inspect.
* Python exceptions are modelled by an error component: a mutating
  method returns the object state at the point the exception is raised
  together with `some err`, mirroring the fact that mutations performed
  before the raise survive on the Python object.
-/

namespace PyExpTools

/-- Numeric cell values (pandas float64, modelled exactly). -/
abbrev Val := ℚ

/-- One line of a source file: the raw text (compared against the header
sentinel and stored in the metadata) and its delimiter-split,
float-cast fields (`none` marks a field that fails the numeric cast). -/
structure Line where
  raw : String
  fields : List (Option Val)
deriving DecidableEq, Repr

/-- Python exceptions raised by the embedded code. -/
inductive PyErr where
  /-- pandas `read_csv` dtype-cast failure (`ValueError`). -/
  | castError
  /-- pandas `read_csv` failure on malformed row structure. -/
  | parserError
  /-- the `assert newData.shape[1] == 2` in `SpectExp.setData`. -/
  | shapeError
  /-- the `ValueError("Experiment at index {} was not loaded")` in
  `SpectGroup.__Compose`; carries the offending index. -/
  | notLoaded (i : ℕ)
  /-- Python `TypeError` (e.g. list indexed with a list, or `reduce`
  over an empty sequence with no initializer). -/
  | typeError
  /-- Python `NameError` (`pandas_read` referenced before assignment
  when the sentinel scan never reaches a data row). -/
  | nameError
  /-- Python `IndexError`. -/
  | indexError
  /-- Not a Python exception but a modelling boundary: a data row with
  fewer fields than columns, which pandas fills with NaN cells;
  NaN-valued data cells are outside this embedding's exact-valued
  frames, so the reader model rejects such files. -/
  | nanFill
deriving DecidableEq, Repr

/-- A pandas DataFrame as produced and consumed by this code base: the
column labels, and the rows, each row a key value (the first column,
the wavelength axis) followed by the remaining cells. -/
structure DataFrame where
  cols : List String
  rows : List (Val × List Val)
deriving DecidableEq, Repr

/-- Number of columns (`shape[1]`). -/
def DataFrame.ncols (df : DataFrame) : ℕ := df.cols.length

/-- The key (first, wavelength) column of a frame. -/
def DataFrame.keys (df : DataFrame) : List Val := df.rows.map Prod.fst

/-- Sequence the optional fields of a row, `none` if any field fails
the numeric cast. -/
def seqFields : List (Option Val) → Option (List Val)
  | [] => some []
  | f :: fs => match f, seqFields fs with
    | some v, some vs => some (v :: vs)
    | _, _ => none

/-- Cast one data row, first dropping its `k` leading fields — the
fields pandas absorbs into the row index, which is not a column of the
frame.  Every kept field must cast to a number (models the `float64`
conversion of the value columns; the reader's `ValueError` on a bad
cast). -/
def castRow (k : ℕ) (fs : List (Option Val)) : Except PyErr (List Val) :=
  match seqFields (fs.drop k) with
  | some vs => .ok vs
  | none => .error .castError

/-- Cast every data row of the block, dropping `k` leading index
fields from each. -/
def castRows (k : ℕ) : List Line → Except PyErr (List (List Val))
  | [] => .ok []
  | l :: ls =>
    match castRow k l.fields, castRows k ls with
    | .ok v, .ok vs => .ok (v :: vs)
    | .error e, _ => .error e
    | _, .error e => .error e

/-- Assemble a frame from column labels and cast rows: the first kept
field of each row is the key (first) column. -/
def mkFrame (cols : List String) (rs : List (List Val)) : DataFrame :=
  ⟨cols, rs.map (fun row => (row.headD 0, row.tail))⟩

/-- Model of `pd.read_csv(..., sep=delim, names=names, dtype=...)` on
the (already delimiter-split) data block.

With explicit `names` (n of them) pandas emits exactly n columns: a
row with extra fields has its leading extras absorbed into the row
index — so a three-field row read with two names loads successfully as
a two-column frame whose first column is the *second* field — and the
block must be of uniform field width (a row with more fields than the
established width raises `ParserError`).  An empty block yields an
empty frame with the requested labels.

With `names=None` pandas infers the header: the first line is consumed
as the column labels (abstracted here to positional placeholders,
since `setData` and `__Compose` rename every label they use) and the
remaining lines are the data block, with the same index absorption and
uniform-width rule; an empty file raises `EmptyDataError` (folded into
`parserError`).

Modelling boundary: a row with *fewer* fields than columns is
NaN-filled by pandas; NaN-valued data cells are outside these
exact-valued frames, so the reader model rejects such files with the
dedicated `nanFill` marker — none of the theorems below depend on
those inputs. -/
def readCsv (names : Option (List String)) (lines : List Line) :
    Except PyErr DataFrame :=
  match names with
  | some ns =>
    if ns.isEmpty then .error .parserError
    else
      match lines with
      | [] => .ok ⟨ns, []⟩
      | l0 :: _ =>
        let w := l0.fields.length
        if lines.all (fun l => l.fields.length = w) then
          if ns.length ≤ w then
            match castRows (w - ns.length) lines with
            | .error e => .error e
            | .ok rs => .ok (mkFrame ns rs)
          else .error .nanFill
        else .error .parserError
  | none =>
    match lines with
    | [] => .error .parserError
    | l0 :: rest =>
      let n := l0.fields.length
      if n = 0 then .error .parserError
      else
        let labels := (List.range n).map (fun i => "Inferred_" ++ toString i)
        match rest with
        | [] => .ok ⟨labels, []⟩
        | r0 :: _ =>
          let w := r0.fields.length
          if rest.all (fun l => l.fields.length = w) then
            if n ≤ w then
              match castRows (w - n) rest with
              | .error e => .error e
              | .ok rs => .ok (mkFrame labels rs)
            else .error .nanFill
          else .error .parserError

/-- A single spectral experiment (`SpectExp`): the loaded data frame
and the metadata lines, each `none` until populated.  The plot
configuration, source path and output path play no role in the claims
about this class and are omitted. -/
structure SpectExp where
  data : Option DataFrame
  metaInfo : Option (List String)
  name : String
deriving DecidableEq, Repr

/-- `SpectExp.isLoaded`: the data frame is populated. -/
def SpectExp.isLoaded (e : SpectExp) : Bool := e.data.isSome

/-- `SpectExp.setMetaInfo`: stores the scanned metadata lines (the type
checks of the Python asserts hold by construction here). -/
def SpectExp.setMetaInfo (e : SpectExp) (m : List String) : SpectExp :=
  { e with metaInfo := some m }

/-- `SpectExp.setData`: asserts the frame has exactly two columns, then
renames the first column to `"Wavelength"` and stores the frame.  On
assertion failure the experiment is returned unchanged together with
the error. -/
def SpectExp.setData (e : SpectExp) (df : DataFrame) : SpectExp × Option PyErr :=
  if df.ncols = 2 then
    ({ e with data := some { df with cols := "Wavelength" :: df.cols.tail } }, none)
  else
    (e, some .shapeError)

/-- The metadata-scanning loop of `SpectExp.readFile`.  Faithful to the
Python control flow: each line is appended to the metadata *before* the
sentinel comparison, so the sentinel line itself lands in the metadata;
and once the sentinel has been met, the loop consumes one further line
(the head of the remaining input) before handing the rest of the file
to `read_csv`, so that line is dropped.  Returns the accumulated
metadata and, when a data region was reached, the lines handed to
`read_csv`; `none` means `pandas_read` was never assigned. -/
def scanMeta (sentinel : String) : Bool → List String → List Line →
    List String × Option (List Line)
  | _, meta, [] => (meta, none)
  | true, meta, _ :: ls => (meta, some ls)
  | false, meta, l :: ls =>
      scanMeta sentinel (l.raw = sentinel) (meta ++ [l.raw]) ls

/-- `SpectExp.readFile`: with no `begin_line` the whole file is parsed
as delimited rows and the metadata set to `[]`; with a `begin_line` the
file is scanned by `scanMeta` first.  A `read_csv` failure is raised
before `setMetaInfo` runs; a `setData` failure is raised after it. -/
def SpectExp.readFile (e : SpectExp) (lines : List Line)
    (beginLine : Option String) (names : Option (List String)) :
    SpectExp × Option PyErr :=
  match beginLine with
  | none =>
    match readCsv names lines with
    | .error err => (e, some err)
    | .ok df => (e.setMetaInfo []).setData df
  | some s =>
    match scanMeta s false [] lines with
    | (meta, none) => (e.setMetaInfo meta, some .nameError)
    | (meta, some rest) =>
      match readCsv names rest with
      | .error err => (e, some err)
      | .ok df => (e.setMetaInfo meta).setData df

/-- Row minimum (pandas `min(axis=1)`): `none` on an empty row. -/
def rowMin : List Val → Option Val
  | [] => none
  | x :: xs => some (xs.foldl min x)

/-- Row maximum (pandas `max(axis=1)`): `none` on an empty row. -/
def rowMax : List Val → Option Val
  | [] => none
  | x :: xs => some (xs.foldl max x)

/-- Row mean (pandas `mean(axis=1)`): `none` on an empty row. -/
def rowMean (vs : List Val) : Option Val :=
  if vs.isEmpty then none else some (vs.sum / vs.length)

/-- Row sample variance with the `N - 1` denominator: the square of the
pandas `std(axis=1)` value (`ddof=1`).  `none` (NaN) when the row has
fewer than two values, exactly as `0/0` is NaN in pandas. -/
def rowVar (vs : List Val) : Option Val :=
  if 2 ≤ vs.length then
    some (((vs.map (fun x => (x - vs.sum / vs.length) ^ 2)).sum) / ((vs.length : Val) - 1))
  else none

/-- One row of the statistics table: the wavelength key and the four
derived cells.  `svar` holds the squared `std` cell (the sample
variance): the pandas `std` column is its square root, an irrational
value that is abstracted to its square here; it is `none` exactly when
the `std` cell is NaN. -/
structure StatsRow where
  key : Val
  smin : Option Val
  smax : Option Val
  smean : Option Val
  svar : Option Val
deriving DecidableEq, Repr

/-- The statistics table: column labels plus the rows. -/
structure StatsTable where
  cols : List String
  rows : List StatsRow
deriving DecidableEq, Repr

/-- Column labels produced by `genStats`, in insertion order. -/
def statsCols : List String := ["Wavelength", "min", "max", "mean", "std"]

/-- The row-wise statistics of a composed frame, in row order. -/
def genStatsRows (df : DataFrame) : List StatsRow :=
  df.rows.map (fun r => ⟨r.1, rowMin r.2, rowMax r.2, rowMean r.2, rowVar r.2⟩)

/-- A group of spectral experiments (`SpectGroup`): the experiment
list, the lazily computed composed frame and statistics table, and the
shared output configuration (`plotConf` is abstracted to an opaque tag,
`outPath` to a string). -/
structure SpectGroup where
  expList : List SpectExp
  data : Option DataFrame
  stats : Option StatsTable
  plotConf : ℕ
  outPath : String
  name : String
deriving DecidableEq, Repr

/-- `SpectGroup.isComposed`. -/
def SpectGroup.isComposed (g : SpectGroup) : Bool := g.data.isSome

/-- `SpectGroup.isStats`. -/
def SpectGroup.isStats (g : SpectGroup) : Bool := g.stats.isSome

/-- `SpectGroup.setExpList`: replaces the experiment list and clears
both caches. -/
def SpectGroup.setExpList (g : SpectGroup) (l : List SpectExp) : SpectGroup :=
  { g with expList := l, data := none, stats := none }

/-- `SpectGroup.addExp`: appends one experiment and clears both
caches. -/
def SpectGroup.addExp (g : SpectGroup) (e : SpectExp) : SpectGroup :=
  { g with expList := g.expList ++ [e], data := none, stats := none }

/-- Index of the first unloaded experiment, as found by the check loop
of `SpectGroup.__Compose`. -/
def firstUnloaded : List SpectExp → Option ℕ
  | [] => none
  | e :: es => if e.isLoaded then (firstUnloaded es).map (· + 1) else some 0

/-- Row content of `pd.merge(x, y, on=["Wavelength"])` (inner join on
the key column): for each left row, one output row per right row with
an equal key, carrying the key once and the concatenated value cells;
left row order is preserved. -/
def mergeRows (xs ys : List (Val × List Val)) : List (Val × List Val) :=
  xs.flatMap (fun r => (ys.filter (fun s => s.1 == r.1)).map (fun s => (r.1, r.2 ++ s.2)))

/-- `pd.merge(x, y, on=["Wavelength"])`: the key column followed by the
non-key columns of both frames.  The suffix renaming pandas applies to
colliding labels is omitted: `__Compose` immediately overwrites every
label. -/
def pdMerge (x y : DataFrame) : DataFrame :=
  ⟨x.cols ++ y.cols.tail, mergeRows x.rows y.rows⟩

/-- The data frame of a loaded experiment (a junk empty frame for an
unloaded one; `Compose` only reads it behind the loaded check). -/
def expDF (e : SpectExp) : DataFrame := e.data.getD ⟨[], []⟩

/-- The frame built by the body of `__Compose` from a nonempty
experiment list: the `reduce` of the pairwise merge over the
experiments' frames, with the columns renamed to
`Wavelength, Exp_0, ..., Exp_{N-1}`. -/
def composedDF : List SpectExp → DataFrame
  | [] => ⟨[], []⟩
  | e0 :: es =>
    ⟨"Wavelength" ::
        (List.range (e0 :: es).length).map (fun i => "Exp_" ++ toString i),
      (es.foldl (fun acc e => pdMerge acc (expDF e)) (expDF e0)).rows⟩

/-- `SpectGroup.Compose` (via `__Compose` over all indices): check that
every experiment is loaded, failing with the first offending index;
`reduce` the pairwise merge over the experiments' frames (a `reduce`
over an empty store raises `TypeError`); rename the columns to
`Wavelength, Exp_0, ..., Exp_{N-1}`; store the result.  On failure the
group is unchanged (the checks precede the mutation in the source). -/
def SpectGroup.Compose (g : SpectGroup) : SpectGroup × Option PyErr :=
  match firstUnloaded g.expList with
  | some i => (g, some (.notLoaded i))
  | none =>
    match g.expList with
    | [] => (g, some .typeError)
    | e0 :: es => ({ g with data := some (composedDF (e0 :: es)) }, none)

/-- The `if not self.isComposed(): self.Compose()` prelude of
`genStats`. -/
def composeIfNeeded (g : SpectGroup) : SpectGroup × Option PyErr :=
  if g.isComposed then (g, none) else g.Compose

/-- `SpectGroup.genStats`: compose first if needed (propagating a
composition failure), then build the statistics table from the composed
frame, row by row and in row order. -/
def SpectGroup.genStats (g : SpectGroup) : SpectGroup × Option PyErr :=
  match composeIfNeeded g with
  | (g1, some e) => (g1, some e)
  | (g1, none) =>
    match g1.data with
    | none => (g1, some .nameError)
    | some df => ({ g1 with stats := some ⟨statsCols, genStatsRows df⟩ }, none)

/-- `SpectGroup.genSubgroup`.  For each inner index list the Python
body evaluates `self.__expList[groupDef[main_index]]`: `__expList` is a
plain Python list and `groupDef[main_index]` is a list, so this raises
`TypeError: list indices must be integers or slices, not list` on the
first iteration; an empty definition list returns `[]` without entering
the loop.  (The per-entry `isinstance(..., int)` asserts hold by
construction for `Int`-typed indices.) -/
def SpectGroup.genSubgroup (g : SpectGroup) (groupDef : List (List Int)) :
    Except PyErr (List SpectGroup) :=
  match g, groupDef with
  | _, [] => .ok []
  | _, _ :: _ => .error .typeError

/-- A world of stores, for the frame properties: calling a method on
the store at index `i` rewrites only that entry (the Python method
bodies reference only `self`). -/
def composeAt (w : List SpectGroup) (i : ℕ) : List SpectGroup × Option PyErr :=
  match w[i]? with
  | none => (w, some .indexError)
  | some g => (w.set i g.Compose.1, g.Compose.2)

/-- `genStats` on the store at index `i` of a world of stores. -/
def genStatsAt (w : List SpectGroup) (i : ℕ) : List SpectGroup × Option PyErr :=
  match w[i]? with
  | none => (w, some .indexError)
  | some g => (w.set i g.genStats.1, g.genStats.2)

/-- Key set of a loaded experiment (empty for an unloaded one). -/
def expKeys (e : SpectExp) : List Val := (expDF e).keys

/-- The intersection of the key sets of a store's experiments, seeded
at the first experiment, as a finite set. -/
def interKeys : List SpectExp → Finset Val
  | [] => ∅
  | e0 :: es => es.foldl (fun s e => s ∩ (expKeys e).toFinset) (expKeys e0).toFinset

/-! ## Concrete sample data used by witnesses and counterexamples -/

/-- A data line: the raw text and its two numeric fields. -/
def numLine (r : String) (k v : Val) : Line := ⟨r, [some k, some v]⟩

/-- A metadata line: raw text whose single field is non-numeric. -/
def textLine (s : String) : Line := ⟨s, [none]⟩

/-- A loaded two-column experiment, as left by a successful `setData`. -/
def mkExp (n : String) (rows : List (Val × List Val)) : SpectExp :=
  ⟨some ⟨["Wavelength", "Measure"], rows⟩, some [], n⟩

/-- A store of the given experiments with empty caches. -/
def mkGroup (n : String) (es : List SpectExp) : SpectGroup :=
  ⟨es, none, none, 0, "out", n⟩

/-- Source file of the C3 scenario: two metadata lines, the sentinel
`"BEGIN\n"`, then three tab-separated data rows. -/
def fileC3 : List Line :=
  [textLine "meta line 1\n", textLine "meta line 2\n", textLine "BEGIN\n",
   numLine "1\t10\n" 1 10, numLine "2\t20\n" 2 20, numLine "3\t30\n" 3 30]

/-- A record that already carries data and metadata from an earlier
load, used to exhibit the partial mutation of a failed re-load. -/
def expC6 : SpectExp :=
  ⟨some ⟨["Wavelength", "Old"], [(1, [1])]⟩, some ["old meta\n"], "e6"⟩

/-- A source file whose every data row has three fields. -/
def fileC6 : List Line :=
  [⟨"1\t10\t100\n", [some 1, some 10, some 100]⟩,
   ⟨"2\t20\t200\n", [some 2, some 20, some 200]⟩]

/-- The three-record store of the C1 concrete scenario: key columns
`[1, 2, 3]`, `[2, 3, 4]` and `[1, 2, 3, 4]`. -/
def groupC1 : SpectGroup :=
  mkGroup "G1"
    [mkExp "a" [(1, [10]), (2, [20]), (3, [30])],
     mkExp "b" [(2, [21]), (3, [31]), (4, [41])],
     mkExp "c" [(1, [12]), (2, [22]), (3, [32]), (4, [42])]]

/-- A one-record store whose key column contains the wavelength 1
twice. -/
def groupDup : SpectGroup := mkGroup "D" [mkExp "d" [(1, [1]), (1, [2])]]

/-! ## Supporting lemmas -/

/-- The first-unloaded scan finds the least unloaded index whenever an
unloaded experiment exists. -/
theorem firstUnloaded_of_exists {es : List SpectExp}
    (h : ∃ e ∈ es, e.isLoaded = false) :
    ∃ i, firstUnloaded es = some i ∧
      es[i]?.map SpectExp.isLoaded = some false ∧
      ∀ j, j < i → es[j]?.map SpectExp.isLoaded = some true := by
  induction es with
  | nil => simp at h
  | cons e es ih =>
    cases he : e.isLoaded with
    | false =>
      refine ⟨0, by simp [firstUnloaded, he], by simp [he], by omega⟩
    | true =>
      obtain ⟨x, hx, hxl⟩ := h
      rcases List.mem_cons.mp hx with rfl | hx
      · rw [he] at hxl; cases hxl
      · obtain ⟨i, h1, h2, h3⟩ := ih ⟨x, hx, hxl⟩
        refine ⟨i + 1, by simp [firstUnloaded, he, h1], by simpa using h2, ?_⟩
        intro j hj
        cases j with
        | zero => simpa using he
        | succ j => simpa using h3 j (by omega)

/-- The first-unloaded scan finds nothing when everything is loaded. -/
theorem firstUnloaded_eq_none {es : List SpectExp}
    (h : ∀ e ∈ es, e.isLoaded = true) : firstUnloaded es = none := by
  induction es with
  | nil => rfl
  | cons e es ih =>
    simp [firstUnloaded, h e (by simp),
      ih (fun x hx => h x (List.mem_cons_of_mem _ hx))]

/-- The running minimum is one of the seed and the list elements. -/
theorem foldl_min_mem (xs : List Val) (x : Val) : xs.foldl min x ∈ x :: xs := by
  induction xs generalizing x with
  | nil => simp
  | cons y ys ih =>
    have h := ih (min x y)
    rcases List.mem_cons.mp h with h | h
    · rcases min_choice x y with hm | hm <;> rw [List.foldl_cons, h, hm] <;> simp
    · exact List.mem_cons_of_mem _ (List.mem_cons_of_mem _ h)

/-- The running minimum bounds its seed. -/
theorem foldl_min_le_seed (xs : List Val) (x : Val) : xs.foldl min x ≤ x := by
  induction xs generalizing x with
  | nil => exact le_refl _
  | cons y ys ih =>
    rw [List.foldl_cons]
    exact le_trans (ih (min x y)) (min_le_left _ _)

/-- The running minimum bounds the seed and every list element. -/
theorem foldl_min_le (xs : List Val) (x b : Val) (hb : b ∈ x :: xs) :
    xs.foldl min x ≤ b := by
  induction xs generalizing x with
  | nil =>
    rw [List.mem_singleton] at hb
    subst hb
    exact le_refl _
  | cons y ys ih =>
    rw [List.foldl_cons]
    rcases List.mem_cons.mp hb with h1 | hb2
    · subst h1
      exact le_trans (foldl_min_le_seed ys (min b y)) (min_le_left _ _)
    · rcases List.mem_cons.mp hb2 with h1 | hb3
      · subst h1
        exact le_trans (foldl_min_le_seed ys (min x b)) (min_le_right _ _)
      · exact ih (min x y) (List.mem_cons_of_mem _ hb3)

/-- The running maximum is one of the seed and the list elements. -/
theorem foldl_max_mem (xs : List Val) (x : Val) : xs.foldl max x ∈ x :: xs := by
  induction xs generalizing x with
  | nil => simp
  | cons y ys ih =>
    have h := ih (max x y)
    rcases List.mem_cons.mp h with h | h
    · rcases max_choice x y with hm | hm <;> rw [List.foldl_cons, h, hm] <;> simp
    · exact List.mem_cons_of_mem _ (List.mem_cons_of_mem _ h)

/-- The seed bounds the running maximum from below. -/
theorem seed_le_foldl_max (xs : List Val) (x : Val) : x ≤ xs.foldl max x := by
  induction xs generalizing x with
  | nil => exact le_refl _
  | cons y ys ih =>
    rw [List.foldl_cons]
    exact le_trans (le_max_left _ _) (ih (max x y))

/-- The seed and every list element bound the running maximum. -/
theorem le_foldl_max (xs : List Val) (x b : Val) (hb : b ∈ x :: xs) :
    b ≤ xs.foldl max x := by
  induction xs generalizing x with
  | nil =>
    rw [List.mem_singleton] at hb
    subst hb
    exact le_refl _
  | cons y ys ih =>
    rw [List.foldl_cons]
    rcases List.mem_cons.mp hb with h1 | hb2
    · subst h1
      exact le_trans (le_max_left _ _) (seed_le_foldl_max ys (max b y))
    · rcases List.mem_cons.mp hb2 with h1 | hb3
      · subst h1
        exact le_trans (le_max_right _ _) (seed_le_foldl_max ys (max x b))
      · exact ih (max x y) (List.mem_cons_of_mem _ hb3)

/-- `rowMin` of a nonempty row is an attained lower bound. -/
theorem rowMin_spec (v : Val) (vs : List Val) :
    ∃ m, rowMin (v :: vs) = some m ∧ m ∈ v :: vs ∧ ∀ x ∈ v :: vs, m ≤ x :=
  ⟨vs.foldl min v, rfl, foldl_min_mem vs v, fun x hx => foldl_min_le vs v x hx⟩

/-- `rowMax` of a nonempty row is an attained upper bound. -/
theorem rowMax_spec (v : Val) (vs : List Val) :
    ∃ M, rowMax (v :: vs) = some M ∧ M ∈ v :: vs ∧ ∀ x ∈ v :: vs, x ≤ M :=
  ⟨vs.foldl max v, rfl, foldl_max_mem vs v, fun x hx => le_foldl_max vs v x hx⟩

/-- `rowMean` of a nonempty row is the value whose product with the row
length is the row sum. -/
theorem rowMean_spec (vs : List Val) (h : vs ≠ []) :
    ∃ μ, rowMean vs = some μ ∧ μ * vs.length = vs.sum := by
  refine ⟨vs.sum / vs.length, by simp [rowMean, h], ?_⟩
  have hn : ((vs.length : Val)) ≠ 0 :=
    Nat.cast_ne_zero.mpr (List.length_pos.mpr h).ne'
  exact div_mul_cancel₀ _ hn

/-- A lower bound of the row is at most any value that multiplies with
the row length to the row sum. -/
theorem lower_bound_le_mean {vs : List Val} {m μ : Val} (hne : vs ≠ [])
    (hm : ∀ x ∈ vs, m ≤ x) (hμ : μ * vs.length = vs.sum) : m ≤ μ := by
  have hlen : (0 : Val) < vs.length := by
    exact_mod_cast List.length_pos.mpr hne
  have hsum : m * vs.length ≤ vs.sum := by
    have h := List.card_nsmul_le_sum vs m hm
    simpa [nsmul_eq_mul, mul_comm] using h
  rw [← hμ] at hsum
  exact le_of_mul_le_mul_right hsum hlen

/-- Any value that multiplies with the row length to the row sum is at
most an upper bound of the row. -/
theorem mean_le_upper_bound {vs : List Val} {M μ : Val} (hne : vs ≠ [])
    (hM : ∀ x ∈ vs, x ≤ M) (hμ : μ * vs.length = vs.sum) : μ ≤ M := by
  have hlen : (0 : Val) < vs.length := by
    exact_mod_cast List.length_pos.mpr hne
  have hsum : vs.sum ≤ M * vs.length := by
    have h := List.sum_le_card_nsmul vs M hM
    simpa [nsmul_eq_mul, mul_comm] using h
  rw [← hμ] at hsum
  exact le_of_mul_le_mul_right hsum hlen

/-- `rowVar` of a row of length at least two is the sum of squared
deviations from the mean divided by `length - 1`. -/
theorem rowVar_spec (vs : List Val) (h2 : 2 ≤ vs.length) :
    ∃ v, rowVar vs = some v ∧
      v * ((vs.length : Val) - 1)
        = (vs.map (fun x => (x - vs.sum / vs.length) ^ 2)).sum := by
  refine ⟨((vs.map (fun x => (x - vs.sum / vs.length) ^ 2)).sum) /
      ((vs.length : Val) - 1), by simp [rowVar, h2], ?_⟩
  have h2q : (2 : Val) ≤ vs.length := by exact_mod_cast h2
  have hne : ((vs.length : Val) - 1) ≠ 0 := by linarith
  exact div_mul_cancel₀ _ hne

/-- Any value `rowVar` produces is nonnegative. -/
theorem rowVar_nonneg {vs : List Val} {v : Val} (h : rowVar vs = some v) :
    0 ≤ v := by
  unfold rowVar at h
  split at h
  · injection h with h1
    subst h1
    apply div_nonneg
    · apply List.sum_nonneg
      intro x hx
      obtain ⟨y, _, rfl⟩ := List.mem_map.mp hx
      exact sq_nonneg _
    · have h2q : (2 : Val) ≤ vs.length := by
        exact_mod_cast (by assumption : 2 ≤ vs.length)
      linarith
  · cases h

/-- `rowVar` is undefined (NaN) on rows of fewer than two values. -/
theorem rowVar_eq_none {vs : List Val} (h : vs.length < 2) :
    rowVar vs = none := by
  unfold rowVar
  rw [if_neg (by omega)]

/-- The zip of a frame's rows with its statistics rows pairs each data
row with its own statistics row. -/
theorem zip_genStatsRows (df : DataFrame) (pr : (Val × List Val) × StatsRow)
    (h : pr ∈ df.rows.zip (genStatsRows df)) :
    pr.1 ∈ df.rows ∧
      pr.2 = ⟨pr.1.1, rowMin pr.1.2, rowMax pr.1.2, rowMean pr.1.2,
        rowVar pr.1.2⟩ := by
  have hz : df.rows.zip (genStatsRows df)
      = df.rows.map (fun r =>
          (r, (⟨r.1, rowMin r.2, rowMax r.2, rowMean r.2, rowVar r.2⟩ :
            StatsRow))) := by
    have h0 := List.zip_map' (fun r => r)
      (fun r : Val × List Val =>
        (⟨r.1, rowMin r.2, rowMax r.2, rowMean r.2, rowVar r.2⟩ : StatsRow))
      df.rows
    simpa [genStatsRows] using h0
  rw [hz] at h
  obtain ⟨r, hr, rfl⟩ := List.mem_map.mp h
  exact ⟨hr, rfl⟩

/-! ## Claims -/

/-- C8: both record-list mutators, `addExp` (append) and `setExpList`
(replace), clear the derived caches: immediately after either call,
`isComposed()` and `isStats()` return false. -/
theorem mutators_clear_caches (g : SpectGroup) (e : SpectExp)
    (l : List SpectExp) :
    (g.addExp e).isComposed = false ∧ (g.addExp e).isStats = false ∧
    (g.setExpList l).isComposed = false ∧ (g.setExpList l).isStats = false := by
  simp [SpectGroup.addExp, SpectGroup.setExpList, SpectGroup.isComposed,
    SpectGroup.isStats]

/-- C5: composing a store that contains an unloaded experiment fails
with an error naming the first unloaded index, and the store — its
composed data and stats included — is returned unchanged. -/
theorem compose_unloaded_fails (g : SpectGroup)
    (h : ∃ e ∈ g.expList, e.isLoaded = false) :
    ∃ i, g.Compose = (g, some (.notLoaded i)) ∧
      g.expList[i]?.map SpectExp.isLoaded = some false ∧
      ∀ j, j < i → g.expList[j]?.map SpectExp.isLoaded = some true := by
  obtain ⟨i, h1, h2, h3⟩ := firstUnloaded_of_exists h
  exact ⟨i, by simp [SpectGroup.Compose, h1], h2, h3⟩

/-- Witness for C5 at a two-record store whose second record is
unloaded. -/
theorem compose_unloaded_fails_witness :
    (∃ e ∈ (mkGroup "W5" [mkExp "a" [(1, [10])], ⟨none, none, "u"⟩]).expList,
        e.isLoaded = false) ∧
    ∃ i, (mkGroup "W5" [mkExp "a" [(1, [10])], ⟨none, none, "u"⟩]).Compose =
        (mkGroup "W5" [mkExp "a" [(1, [10])], ⟨none, none, "u"⟩],
          some (.notLoaded i)) ∧
      (mkGroup "W5" [mkExp "a" [(1, [10])], ⟨none, none, "u"⟩]).expList[i]?.map
          SpectExp.isLoaded = some false ∧
      ∀ j, j < i →
        (mkGroup "W5" [mkExp "a" [(1, [10])], ⟨none, none, "u"⟩]).expList[j]?.map
          SpectExp.isLoaded = some true :=
  ⟨by decide, compose_unloaded_fails _ (by decide)⟩

/-- A `Compose` call on a store of loaded experiments succeeds and
stores the composed frame of its experiment list. -/
theorem compose_ok {g : SpectGroup} (hf : firstUnloaded g.expList = none)
    (hne : g.expList ≠ []) :
    g.Compose = ({ g with data := some (composedDF g.expList) }, none) := by
  unfold SpectGroup.Compose
  rw [hf]
  cases hl : g.expList with
  | nil => exact absurd hl hne
  | cons e0 es => rfl

/-- C7: `Compose` is idempotent: after a successful `Compose`, calling
it again (with no intervening mutation) succeeds and leaves the store —
composed table included — structurally identical. -/
theorem compose_idempotent (g g' : SpectGroup) (h : g.Compose = (g', none)) :
    g'.Compose = (g', none) := by
  cases hf : firstUnloaded g.expList with
  | some i => unfold SpectGroup.Compose at h; rw [hf] at h; simp at h
  | none =>
    cases hl : g.expList with
    | nil => unfold SpectGroup.Compose at h; rw [hf, hl] at h; simp at h
    | cons e0 es =>
      have hne : g.expList ≠ [] := by simp [hl]
      rw [compose_ok hf hne] at h
      have hg : g' = { g with data := some (composedDF g.expList) } :=
        (congrArg Prod.fst h).symm
      subst hg
      have hf2 : firstUnloaded
          ({ g with data := some (composedDF g.expList) } : SpectGroup).expList
            = none := hf
      rw [compose_ok hf2 hne]

/-- The one-record store of the C7 witness. -/
def groupW7 : SpectGroup := mkGroup "W7" [mkExp "a" [(1, [10])]]

/-- `groupW7` after a successful `Compose`. -/
def groupW7c : SpectGroup :=
  ⟨groupW7.expList, some ⟨["Wavelength", "Exp_0"], [(1, [10])]⟩,
    groupW7.stats, groupW7.plotConf, groupW7.outPath, groupW7.name⟩

/-- Witness for C7 at a one-record store. -/
theorem compose_idempotent_witness :
    groupW7.Compose = (groupW7c, none) ∧
    groupW7c.Compose = (groupW7c, none) :=
  ⟨by decide, compose_idempotent groupW7 groupW7c (by decide)⟩

/-- C4: the claim says `genSubgroup` returns one new store per inner
index list; instead, for every nonempty definition — here the in-range
definition `[[0], [1]]` over a two-record store — the code raises
`TypeError`, because it indexes the Python record list with a list
(`self.__expList[groupDef[main_index]]`). -/
theorem genSubgroup_raises :
    (mkGroup "G4" [mkExp "a" [(1, [10])], mkExp "b" [(1, [11])]]).genSubgroup
      [[0], [1]] = .error .typeError := rfl

/-- C3: the claim says the scenario file (two metadata lines, the
sentinel `"BEGIN\n"`, three data rows) loads into two metadata lines
and a three-row record.  The code instead stores the sentinel line in
the metadata (three lines) and silently drops the first data row (two
rows): the scan loop appends each line to the metadata before the
sentinel comparison, and after meeting the sentinel it consumes one
further line before handing the file to `read_csv`. -/
theorem readFile_sentinel_off_by_one :
    (SpectExp.readFile ⟨none, none, "e3"⟩ fileC3 (some "BEGIN\n")
        (some ["Wavelength", "Measure"])) =
      (⟨some ⟨["Wavelength", "Measure"], [(2, [20]), (3, [30])]⟩,
        some ["meta line 1\n", "meta line 2\n", "BEGIN\n"], "e3"⟩, none) := by
  decide

/-- C6 counterexample: one file whose every row has three fields
refutes the claim both ways.  Re-loaded with `col_names=None` (the
`readFile` default), pandas infers the header from the first line and
parses a three-column frame: the load fails at `setData`'s two-column
check, but only after `setMetaInfo` has overwritten the record's
metadata — not all-or-nothing.  Re-loaded with the two explicit column
names, pandas absorbs the extra leading field into the row index and
the load silently succeeds, with the file's second field as the key
column — no parse/format error is raised at all. -/
theorem load_not_allornothing :
    (expC6.readFile fileC6 none none =
        ({ expC6 with metaInfo := some [] }, some .shapeError) ∧
      some ([] : List String) ≠ expC6.metaInfo) ∧
    expC6.readFile fileC6 none (some ["Wavelength", "Measure"])
      = (⟨some ⟨["Wavelength", "Measure"], [(10, [100]), (20, [200])]⟩,
          some [], "e6"⟩, none) := by
  decide

/-- The metadata list `readFile` hands to `setMetaInfo`: empty when no
sentinel is given, the scanned lines otherwise. -/
def scannedMeta (bl : Option String) (lines : List Line) : List String :=
  match bl with
  | none => []
  | some s => (scanMeta s false [] lines).1

/-- C6 amended: a failed load leaves the record's data unchanged, and
leaves the metadata either unchanged (reader-level cast or row-shape
failures, raised before `setMetaInfo`) or overwritten with the scanned
metadata lines (failures raised after it, such as the two-column
check). -/
theorem load_fail_data_unchanged (e e' : SpectExp) (lines : List Line)
    (bl : Option String) (names : Option (List String)) (err : PyErr)
    (h : e.readFile lines bl names = (e', some err)) :
    e'.data = e.data ∧
      (e'.metaInfo = e.metaInfo ∨ e'.metaInfo = some (scannedMeta bl lines)) := by
  cases bl with
  | none =>
    simp only [SpectExp.readFile, SpectExp.setData, SpectExp.setMetaInfo] at h
    split at h
    · injection h with h1 h2
      subst h1
      exact ⟨rfl, .inl rfl⟩
    · split at h
      · simp at h
      · injection h with h1 h2
        subst h1
        exact ⟨rfl, .inr rfl⟩
  | some s =>
    simp only [SpectExp.readFile, SpectExp.setData, SpectExp.setMetaInfo] at h
    split at h
    next meta hscan =>
      injection h with h1 h2
      subst h1
      refine ⟨rfl, .inr ?_⟩
      simp [scannedMeta, hscan]
    next meta rest hscan =>
      split at h
      · injection h with h1 h2
        subst h1
        exact ⟨rfl, .inl rfl⟩
      · split at h
        · simp at h
        · injection h with h1 h2
          subst h1
          refine ⟨rfl, .inr ?_⟩
          simp [scannedMeta, hscan]

/-- Witness for the amended C6 at the three-field file loaded with
inferred column names. -/
theorem load_fail_data_unchanged_witness :
    expC6.readFile fileC6 none none =
      ({ expC6 with metaInfo := some [] }, some .shapeError) ∧
    (({ expC6 with metaInfo := some [] } : SpectExp).data = expC6.data ∧
      (({ expC6 with metaInfo := some [] } : SpectExp).metaInfo =
          expC6.metaInfo ∨
        ({ expC6 with metaInfo := some [] } : SpectExp).metaInfo =
          some (scannedMeta none fileC6))) :=
  ⟨by decide,
    load_fail_data_unchanged expC6 _ fileC6 none none
      .shapeError (by decide)⟩

/-- C10: calling `Compose` or `genStats` on one store of a world
rewrites only that store: for a parent and a subgroup sharing records,
composing either one leaves the other — its cached data and stats
included — unchanged. -/
theorem subgroup_cache_independence (w : List SpectGroup) (p s : ℕ)
    (par sub : SpectGroup) (hp : w[p]? = some par) (hs : w[s]? = some sub)
    (hne : p ≠ s) (hshare : ∀ e ∈ sub.expList, e ∈ par.expList) :
    (composeAt w s).1[p]? = some par ∧ (genStatsAt w s).1[p]? = some par ∧
    (composeAt w p).1[s]? = some sub ∧ (genStatsAt w p).1[s]? = some sub := by
  refine ⟨?_, ?_, ?_, ?_⟩
  · simp [composeAt, hs, List.getElem?_set_ne (Ne.symm hne), hp]
  · simp [genStatsAt, hs, List.getElem?_set_ne (Ne.symm hne), hp]
  · simp [composeAt, hp, List.getElem?_set_ne hne, hs]
  · simp [genStatsAt, hp, List.getElem?_set_ne hne, hs]

/-- Witness for C10: a two-store world, the subgroup holding a subset
of the parent's records. -/
theorem subgroup_cache_independence_witness :
    ([groupC1, mkGroup "S" [mkExp "a" [(1, [10]), (2, [20]), (3, [30])]]] :
        List SpectGroup)[0]? = some groupC1 ∧
    ([groupC1, mkGroup "S" [mkExp "a" [(1, [10]), (2, [20]), (3, [30])]]] :
        List SpectGroup)[1]? =
      some (mkGroup "S" [mkExp "a" [(1, [10]), (2, [20]), (3, [30])]]) ∧
    (0 : ℕ) ≠ 1 ∧
    (∀ e ∈ (mkGroup "S" [mkExp "a" [(1, [10]), (2, [20]), (3, [30])]]).expList,
      e ∈ groupC1.expList) ∧
    ((composeAt [groupC1,
        mkGroup "S" [mkExp "a" [(1, [10]), (2, [20]), (3, [30])]]] 1).1[0]? =
        some groupC1 ∧
      (genStatsAt [groupC1,
        mkGroup "S" [mkExp "a" [(1, [10]), (2, [20]), (3, [30])]]] 1).1[0]? =
        some groupC1 ∧
      (composeAt [groupC1,
        mkGroup "S" [mkExp "a" [(1, [10]), (2, [20]), (3, [30])]]] 0).1[1]? =
        some (mkGroup "S" [mkExp "a" [(1, [10]), (2, [20]), (3, [30])]]) ∧
      (genStatsAt [groupC1,
        mkGroup "S" [mkExp "a" [(1, [10]), (2, [20]), (3, [30])]]] 0).1[1]? =
        some (mkGroup "S" [mkExp "a" [(1, [10]), (2, [20]), (3, [30])]])) :=
  ⟨by decide, by decide, by decide, by decide,
    subgroup_cache_independence _ 0 1 _ _ (by decide) (by decide) (by decide)
      (by decide)⟩

/-- The composed-store and frame of the C2 witness: the single record
holds the value 5 at key 1. -/
def groupW2 : SpectGroup := mkGroup "W2" [mkExp "s" [(1, [5])]]

/-- The composed frame of `groupW2`. -/
def dfW2 : DataFrame := ⟨["Wavelength", "Exp_0"], [(1, [5])]⟩

/-- `groupW2` after composition. -/
def groupW2c : SpectGroup :=
  ⟨groupW2.expList, some dfW2, groupW2.stats, groupW2.plotConf,
    groupW2.outPath, groupW2.name⟩

/-- C2: on a store whose composed frame (computed first when the store
is not yet composed) has `N ≥ 1` value cells per row, `genStats`
succeeds and stores a statistics table with columns
`[Wavelength, min, max, mean, std]`, one row per composed row in the
same order, where each row carries the attained minimum and maximum of
its values, the value whose product with `N` is the row sum (the mean),
and the sample variance — the squared `std` — which satisfies
`v * (N - 1) = sum of squared deviations from the mean` for `N ≥ 2` and
is NaN for `N = 1`. -/
theorem genStats_correct (g g1 : SpectGroup) (df : DataFrame) (N : ℕ)
    (hc : composeIfNeeded g = (g1, none)) (hdf : g1.data = some df)
    (hw : ∀ r ∈ df.rows, r.2.length = N) (hN : 1 ≤ N) :
    g.genStats = ({ g1 with stats := some ⟨statsCols, genStatsRows df⟩ }, none) ∧
    statsCols = ["Wavelength", "min", "max", "mean", "std"] ∧
    (genStatsRows df).length = df.rows.length ∧
    (genStatsRows df).map StatsRow.key = df.rows.map Prod.fst ∧
    ∀ pr ∈ df.rows.zip (genStatsRows df),
      pr.2.key = pr.1.1 ∧
      (∃ m, pr.2.smin = some m ∧ m ∈ pr.1.2 ∧ ∀ x ∈ pr.1.2, m ≤ x) ∧
      (∃ M, pr.2.smax = some M ∧ M ∈ pr.1.2 ∧ ∀ x ∈ pr.1.2, x ≤ M) ∧
      (∃ mu, pr.2.smean = some mu ∧ mu * (N : Val) = pr.1.2.sum) ∧
      (N = 1 → pr.2.svar = none) ∧
      (2 ≤ N → ∃ v mu, pr.2.smean = some mu ∧ pr.2.svar = some v ∧
        v * ((N : Val) - 1) = (pr.1.2.map (fun x => (x - mu) ^ 2)).sum) := by
  have hgen : g.genStats
      = ({ g1 with stats := some ⟨statsCols, genStatsRows df⟩ }, none) := by
    unfold SpectGroup.genStats
    rw [hc]
    cases g1 with
    | mk el d st0 pc op nm =>
      simp only at hdf
      subst hdf
      rfl
  refine ⟨hgen, rfl, by simp [genStatsRows], by simp [genStatsRows], ?_⟩
  intro pr hpr
  obtain ⟨hmem, hpr2⟩ := zip_genStatsRows df pr hpr
  have hlen : pr.1.2.length = N := hw pr.1 hmem
  have hne : pr.1.2 ≠ [] := by
    intro hnil
    rw [hnil] at hlen
    simp at hlen
    omega
  refine ⟨by rw [hpr2], ?_, ?_, ?_, ?_, ?_⟩
  · cases hv : pr.1.2 with
    | nil => exact absurd hv hne
    | cons v vt =>
      obtain ⟨m, hm1, hm2, hm3⟩ := rowMin_spec v vt
      exact ⟨m, by simp [hpr2, hv, hm1], hm2, hm3⟩
  · cases hv : pr.1.2 with
    | nil => exact absurd hv hne
    | cons v vt =>
      obtain ⟨M, hM1, hM2, hM3⟩ := rowMax_spec v vt
      exact ⟨M, by simp [hpr2, hv, hM1], hM2, hM3⟩
  · obtain ⟨mu, hmu1, hmu2⟩ := rowMean_spec pr.1.2 hne
    refine ⟨mu, by simp [hpr2, hmu1], ?_⟩
    rw [← hlen]
    exact hmu2
  · intro h1
    rw [hpr2]
    exact rowVar_eq_none (by omega)
  · intro h2
    obtain ⟨v, hv1, hv2⟩ := rowVar_spec pr.1.2 (by omega)
    have hml : rowMean pr.1.2 = some (pr.1.2.sum / pr.1.2.length) := by
      simp [rowMean, hne]
    refine ⟨v, pr.1.2.sum / pr.1.2.length,
      by simp [hpr2, hml], by simp [hpr2, hv1], ?_⟩
    rw [← hlen]
    exact hv2

/-- Witness for C2: the single-record, single-value store of the
concrete scenario (value 5 at key 1): the stats row is
`min = max = mean = 5` with NaN `std`. -/
theorem genStats_correct_witness :
    (composeIfNeeded groupW2 = (groupW2c, none) ∧ groupW2c.data = some dfW2 ∧
      (∀ r ∈ dfW2.rows, r.2.length = 1) ∧ 1 ≤ 1) ∧
    (groupW2.genStats
        = ({ groupW2c with stats := some ⟨statsCols, genStatsRows dfW2⟩ },
          none) ∧
      statsCols = ["Wavelength", "min", "max", "mean", "std"] ∧
      (genStatsRows dfW2).length = dfW2.rows.length ∧
      (genStatsRows dfW2).map StatsRow.key = dfW2.rows.map Prod.fst ∧
      ∀ pr ∈ dfW2.rows.zip (genStatsRows dfW2),
        pr.2.key = pr.1.1 ∧
        (∃ m, pr.2.smin = some m ∧ m ∈ pr.1.2 ∧ ∀ x ∈ pr.1.2, m ≤ x) ∧
        (∃ M, pr.2.smax = some M ∧ M ∈ pr.1.2 ∧ ∀ x ∈ pr.1.2, x ≤ M) ∧
        (∃ mu, pr.2.smean = some mu ∧ mu * ((1 : ℕ) : Val) = pr.1.2.sum) ∧
        ((1 : ℕ) = 1 → pr.2.svar = none) ∧
        (2 ≤ (1 : ℕ) → ∃ v mu, pr.2.smean = some mu ∧ pr.2.svar = some v ∧
          v * (((1 : ℕ) : Val) - 1)
            = (pr.1.2.map (fun x => (x - mu) ^ 2)).sum)) ∧
    (genStatsRows dfW2
      = [⟨1, some 5, some 5, some 5, none⟩]) :=
  ⟨⟨by decide, by decide, by decide, by decide⟩,
    genStats_correct groupW2 groupW2c dfW2 1 (by decide) (by decide)
      (by decide) (by decide),
    by norm_num [genStatsRows, dfW2, rowMin, rowMax, rowMean, rowVar]⟩

/-- The composed store of the C9 witness: two values per row. -/
def groupW9 : SpectGroup :=
  ⟨[mkExp "a" [(1, [3])], mkExp "b" [(1, [5])]],
    some ⟨["Wavelength", "Exp_0", "Exp_1"], [(1, [3, 5])]⟩, none, 0, "out", "W9"⟩

/-- `groupW9` after `genStats`. -/
def groupW9s : SpectGroup :=
  ⟨groupW9.expList, groupW9.data,
    some ⟨statsCols,
      genStatsRows ⟨["Wavelength", "Exp_0", "Exp_1"], [(1, [3, 5])]⟩⟩,
    groupW9.plotConf, groupW9.outPath, groupW9.name⟩

/-- C9: every row of the statistics table of a composed store with
`N ≥ 1` value cells per row satisfies `min ≤ mean ≤ max`; for `N ≥ 2`
the sample variance (the squared `std`) is defined and nonnegative —
hence so is the `std` cell, its square root — and for `N = 1` the `std`
cell is NaN. -/
theorem stats_rows_invariant (g g1 : SpectGroup) (df : DataFrame)
    (st : StatsTable) (N : ℕ) (hdata : g.data = some df)
    (hw : ∀ r ∈ df.rows, r.2.length = N) (hN : 1 ≤ N)
    (h : g.genStats = (g1, none)) (hst : g1.stats = some st) :
    ∀ r ∈ st.rows,
      (∃ m mu M, r.smin = some m ∧ r.smean = some mu ∧ r.smax = some M ∧
        m ≤ mu ∧ mu ≤ M) ∧
      (2 ≤ N → ∃ v, r.svar = some v ∧ 0 ≤ v) ∧
      (N = 1 → r.svar = none) := by
  have hcomp : g.isComposed = true := by
    unfold SpectGroup.isComposed
    rw [hdata]
    rfl
  have hgen : g.genStats
      = ({ g with stats := some ⟨statsCols, genStatsRows df⟩ }, none) := by
    unfold SpectGroup.genStats composeIfNeeded
    rw [hcomp]
    simp only [if_pos]
    rw [hdata]
  rw [hgen] at h
  have hg1 : g1 = { g with stats := some ⟨statsCols, genStatsRows df⟩ } :=
    (congrArg Prod.fst h).symm
  rw [hg1] at hst
  have hsome : some (⟨statsCols, genStatsRows df⟩ : StatsTable) = some st := hst
  have hst2 : st = ⟨statsCols, genStatsRows df⟩ :=
    (Option.some_inj.mp hsome).symm
  intro r hr
  rw [hst2] at hr
  obtain ⟨row, hrow, rfl⟩ := List.mem_map.mp hr
  have hlen : row.2.length = N := hw row hrow
  have hne : row.2 ≠ [] := by
    intro hnil
    rw [hnil] at hlen
    simp at hlen
    omega
  refine ⟨?_, ?_, ?_⟩
  · cases hv : row.2 with
    | nil => exact absurd hv hne
    | cons v vt =>
      obtain ⟨m, hm1, hm2, hm3⟩ := rowMin_spec v vt
      obtain ⟨M, hM1, hM2, hM3⟩ := rowMax_spec v vt
      obtain ⟨mu, hmu1, hmu2⟩ := rowMean_spec row.2 hne
      refine ⟨m, mu, M, by simp [hv, hm1], by rw [← hv]; exact hmu1,
        by simp [hv, hM1], ?_, ?_⟩
      · exact lower_bound_le_mean hne (by rw [hv]; exact hm3) hmu2
      · exact mean_le_upper_bound hne (by rw [hv]; exact hM3) hmu2
  · intro h2
    obtain ⟨v, hv1, hv2⟩ := rowVar_spec row.2 (by omega)
    exact ⟨v, by simp [hv1], rowVar_nonneg hv1⟩
  · intro h1
    simp only
    exact rowVar_eq_none (by omega)

/-- Witness for C9 at a composed one-row store with two value cells. -/
theorem stats_rows_invariant_witness :
    (groupW9.data = some ⟨["Wavelength", "Exp_0", "Exp_1"], [(1, [3, 5])]⟩ ∧
      (∀ r ∈ (⟨["Wavelength", "Exp_0", "Exp_1"], [(1, [3, 5])]⟩ :
        DataFrame).rows, r.2.length = 2) ∧
      (1 : ℕ) ≤ 2 ∧ groupW9.genStats = (groupW9s, none) ∧
      groupW9s.stats = some ⟨statsCols,
        genStatsRows ⟨["Wavelength", "Exp_0", "Exp_1"], [(1, [3, 5])]⟩⟩) ∧
    ∀ r ∈ (⟨statsCols,
        genStatsRows ⟨["Wavelength", "Exp_0", "Exp_1"], [(1, [3, 5])]⟩⟩ :
          StatsTable).rows,
      (∃ m mu M, r.smin = some m ∧ r.smean = some mu ∧ r.smax = some M ∧
        m ≤ mu ∧ mu ≤ M) ∧
      (2 ≤ 2 → ∃ v, r.svar = some v ∧ 0 ≤ v) ∧
      ((2 : ℕ) = 1 → r.svar = none) :=
  ⟨⟨by decide, by decide, by decide, by rfl, by rfl⟩,
    stats_rows_invariant groupW9 groupW9s
      ⟨["Wavelength", "Exp_0", "Exp_1"], [(1, [3, 5])]⟩
      ⟨statsCols,
        genStatsRows ⟨["Wavelength", "Exp_0", "Exp_1"], [(1, [3, 5])]⟩⟩ 2
      (by decide) (by decide) (by decide) (by rfl) (by rfl)⟩

/-- In a row list with duplicate-free keys, filtering by one key keeps
one row if the key occurs and none otherwise. -/
theorem filter_key_length (ys : List (Val × List Val)) (k : Val)
    (h : (ys.map Prod.fst).Nodup) :
    (ys.filter (fun s => s.1 == k)).length
      = if k ∈ ys.map Prod.fst then 1 else 0 := by
  induction ys with
  | nil => simp
  | cons s ys ih =>
    have hnd : s.1 ∉ ys.map Prod.fst ∧ (ys.map Prod.fst).Nodup := by
      simpa using h
    by_cases hk : s.1 = k
    · subst hk
      have h0 : (ys.filter (fun t => t.1 == s.1)).length = 0 := by
        rw [ih hnd.2, if_neg hnd.1]
      simp [List.filter_cons, h0]
    · have hk2 : ¬(k = s.1) := fun hh => hk hh.symm
      simp only [List.filter_cons, List.map_cons,
        show (s.1 == k) = false by simp [hk], ih hnd.2, Bool.false_eq_true,
        if_false]
      by_cases hmm : k ∈ List.map Prod.fst ys
      · rw [if_pos hmm, if_pos (List.mem_cons_of_mem _ hmm)]
      · rw [if_neg hmm, if_neg (by
          intro hc
          rcases List.mem_cons.mp hc with h1 | h1
          · exact hk2 h1
          · exact hmm h1)]

/-- The key column of an inner merge against a right table with
duplicate-free keys: the left keys that occur on the right, in left
order. -/
theorem mergeRows_keys (xs ys : List (Val × List Val))
    (h : (ys.map Prod.fst).Nodup) :
    (mergeRows xs ys).map Prod.fst
      = (xs.map Prod.fst).filter (fun k => decide (k ∈ ys.map Prod.fst)) := by
  induction xs with
  | nil => simp [mergeRows]
  | cons r xs ih =>
    simp only [mergeRows] at ih ⊢
    rw [List.flatMap_cons, List.map_append, ih]
    have hl := filter_key_length ys r.1 h
    by_cases hm : r.1 ∈ ys.map Prod.fst
    · rw [if_pos hm] at hl
      obtain ⟨w, hw⟩ : ∃ w, ys.filter (fun s => s.1 == r.1) = [w] := by
        cases hfe : ys.filter (fun s => s.1 == r.1) with
        | nil => rw [hfe] at hl; simp at hl
        | cons w ws =>
          rw [hfe] at hl
          simp at hl
          exact ⟨w, by rw [hl]⟩
      rw [hw]
      simp [List.filter_cons, hm]
    · rw [if_neg hm] at hl
      have hnil : ys.filter (fun s => s.1 == r.1) = [] :=
        List.length_eq_zero.mp hl
      rw [hnil]
      simp [List.filter_cons, hm]

/-- The repeated inner merge keeps exactly the seed keys present in
every joined table, in seed order, and preserves key nodup-ness. -/
theorem foldl_merge_keys (ds : List DataFrame) (d0 : DataFrame)
    (h0 : d0.keys.Nodup) (h : ∀ d ∈ ds, d.keys.Nodup) :
    ((ds.foldl (fun acc d => pdMerge acc d) d0).keys
        = d0.keys.filter (fun k => decide (∀ d ∈ ds, k ∈ d.keys))) ∧
      (ds.foldl (fun acc d => pdMerge acc d) d0).keys.Nodup := by
  induction ds generalizing d0 with
  | nil =>
    refine ⟨by simp, by simpa using h0⟩
  | cons d ds ih =>
    have hd : d.keys.Nodup := h d (List.mem_cons_self d ds)
    have hmk : (pdMerge d0 d).keys
        = d0.keys.filter (fun k => decide (k ∈ d.keys)) :=
      mergeRows_keys d0.rows d.rows hd
    have hmn : (pdMerge d0 d).keys.Nodup := by
      rw [hmk]
      exact h0.filter _
    obtain ⟨ih1, ih2⟩ := ih (pdMerge d0 d) hmn
      (fun x hx => h x (List.mem_cons_of_mem _ hx))
    refine ⟨?_, by simpa [List.foldl_cons] using ih2⟩
    rw [List.foldl_cons, ih1, hmk, List.filter_filter]
    apply List.filter_congr
    intro k hk
    simp [List.forall_mem_cons, Bool.and_comm]

/-- Membership in the folded key-set intersection. -/
theorem mem_foldl_inter (es : List SpectExp) (s0 : Finset Val) (k : Val) :
    k ∈ es.foldl (fun s e => s ∩ (expKeys e).toFinset) s0 ↔
      k ∈ s0 ∧ ∀ e ∈ es, k ∈ expKeys e := by
  induction es generalizing s0 with
  | nil => simp
  | cons e es ih =>
    rw [List.foldl_cons, ih]
    simp [Finset.mem_inter, List.mem_toFinset, and_assoc, List.forall_mem_cons]

/-- C1 counterexample: a store of one loaded experiment whose key
column holds the wavelength 1 twice: `Compose()` succeeds with a
two-row table, while the intersection of the experiments' key sets has
a single element — the composed row count is not the size of the key
intersection when keys repeat. -/
theorem compose_rowcount_cex :
    groupDup.Compose.2 = none ∧
    groupDup.Compose.1.data
      = some ⟨["Wavelength", "Exp_0"], [(1, [1]), (1, [2])]⟩ ∧
    (interKeys groupDup.expList).card = 1 := by
  decide

/-- C1 amended: for a store of `N ≥ 1` loaded experiments whose key
columns are, additionally, duplicate-free, `Compose()` succeeds, the
result columns are `Wavelength, Exp_0, ..., Exp_{N-1}` in insertion
order, the result keys are exactly the intersection of the
experiments' key sets, and the row count is the size of that
intersection (zero rows, with no error, when it is empty). -/
theorem compose_amended (g : SpectGroup) (hne : g.expList ≠ [])
    (hload : ∀ e ∈ g.expList, e.isLoaded = true)
    (hnodup : ∀ e ∈ g.expList, (expKeys e).Nodup) :
    ∃ df, g.Compose = ({ g with data := some df }, none) ∧
      df.cols = "Wavelength" ::
        (List.range g.expList.length).map (fun i => "Exp_" ++ toString i) ∧
      df.keys.toFinset = interKeys g.expList ∧
      df.rows.length = (interKeys g.expList).card := by
  have hf : firstUnloaded g.expList = none := firstUnloaded_eq_none hload
  obtain ⟨e0, es, hl⟩ : ∃ e0 es, g.expList = e0 :: es := by
    cases hle : g.expList with
    | nil => exact absurd hle hne
    | cons e0 es => exact ⟨e0, es, rfl⟩
  have h0 : (expDF e0).keys.Nodup := hnodup e0 (by rw [hl]; simp)
  have hds : ∀ d ∈ es.map expDF, d.keys.Nodup := by
    intro d hd
    obtain ⟨e, he, rfl⟩ := List.mem_map.mp hd
    exact hnodup e (by rw [hl]; exact List.mem_cons_of_mem _ he)
  have hfold := foldl_merge_keys (es.map expDF) (expDF e0) h0 hds
  have hfm : (es.map expDF).foldl (fun acc d => pdMerge acc d) (expDF e0)
      = es.foldl (fun acc e => pdMerge acc (expDF e)) (expDF e0) :=
    List.foldl_map expDF (fun acc d => pdMerge acc d) es (expDF e0)
  rw [hfm] at hfold
  have hkeys : (composedDF (e0 :: es)).keys
      = (expKeys e0).filter (fun k => decide (∀ e ∈ es, k ∈ expKeys e)) := by
    have h1 : (composedDF (e0 :: es)).keys
        = (es.foldl (fun acc e => pdMerge acc (expDF e)) (expDF e0)).keys :=
      rfl
    rw [h1, hfold.1]
    apply List.filter_congr
    intro k hk
    simp [List.mem_map, expKeys]
  have hnd : (composedDF (e0 :: es)).keys.Nodup := by
    have h1 : (composedDF (e0 :: es)).keys
        = (es.foldl (fun acc e => pdMerge acc (expDF e)) (expDF e0)).keys :=
      rfl
    rw [h1]
    exact hfold.2
  have hfin : (composedDF (e0 :: es)).keys.toFinset = interKeys (e0 :: es) := by
    ext k
    rw [hkeys]
    simp only [interKeys]
    rw [mem_foldl_inter]
    simp [List.mem_filter, List.mem_toFinset]
  refine ⟨composedDF g.expList, compose_ok hf hne, ?_, ?_, ?_⟩
  · rw [hl]
    rfl
  · rw [hl]
    exact hfin
  · rw [hl]
    have hrl : (composedDF (e0 :: es)).rows.length
        = (composedDF (e0 :: es)).keys.length := by
      unfold DataFrame.keys
      rw [List.length_map]
    rw [hrl, ← List.toFinset_card_of_nodup hnd, hfin]

/-- Witness for the amended C1 at the three-record concrete scenario:
key columns `[1,2,3]`, `[2,3,4]`, `[1,2,3,4]` compose to exactly the
rows for keys 2 and 3 — two rows, three value columns. -/
theorem compose_amended_witness :
    (groupC1.expList ≠ [] ∧
      (∀ e ∈ groupC1.expList, e.isLoaded = true) ∧
      ∀ e ∈ groupC1.expList, (expKeys e).Nodup) ∧
    (∃ df, groupC1.Compose = ({ groupC1 with data := some df }, none) ∧
      df.cols = "Wavelength" ::
        (List.range groupC1.expList.length).map
          (fun i => "Exp_" ++ toString i) ∧
      df.keys.toFinset = interKeys groupC1.expList ∧
      df.rows.length = (interKeys groupC1.expList).card) ∧
    groupC1.Compose.1.data
      = some ⟨["Wavelength", "Exp_0", "Exp_1", "Exp_2"],
          [(2, [20, 21, 22]), (3, [30, 31, 32])]⟩ :=
  ⟨⟨by decide, by decide, by decide⟩,
    compose_amended groupC1 (by decide) (by decide) (by decide), by decide⟩

end PyExpTools
